import Mathlib

/-!
# Web3Signer: wallet session and signing request

A shallow embedding of `src/App.jsx` and `src/utils/index.js`.

* React state (`useState`) is the record `Session`; a setter call is a record update, and the
  setter calls of one handler run are applied in program order.
* An `async` function is a function from the replies of the outside world (the wallet, the
  signer) to a `Run`: the state it leaves, the calls it made on the outside world in order, the
  way its promise settles and the timers it scheduled. A reply is consulted only on the path on
  which the code makes the call. The state updates of a handler all happen in one synchronous
  stretch (after its last `await`, or with no `await` at all), so a handler run is one atomic
  step of the session.
* The builtin `Number` is a parameter of the handlers that use it: the results below hold for
  whatever number the conversion yields.
-/

namespace Web3Signer

/-! ## JavaScript values -/

/-- JavaScript number values. The two zeros are one value `real 0`: `Array.prototype.includes`
compares with SameValueZero, which does not tell them apart, and which equates NaN with NaN, so
that SameValueZero is equality of this type. -/
inductive JSNumber where
  | nan
  | posInf
  | negInf
  | real (q : ℚ)
  deriving DecidableEq

/-- Errors thrown by the runtime, the wallet or the library. -/
inductive JSError where
  | typeError (msg : String)
  | rpcError (code : Int) (msg : String)
  | invalidArgument (msg : String)
  deriving DecidableEq, Repr

/-- The ways a call of a promise-returning function can end: it throws before returning, or it
returns a promise that is later rejected or resolved. -/
inductive Settled (α : Type) where
  | throws (e : JSError)
  | rejects (e : JSError)
  | resolves (v : α)

/-- The way the promise of an `async` function settles (the value of a fulfilled promise is not
recorded). -/
inductive Completion where
  | fulfilled
  | rejected (e : JSError)
  deriving DecidableEq, Repr

/-! ## State of the component -/

/-- Values held by the `provider` state: `null`, `undefined` (the argument-less `setProvider()`),
or the object made by `new ethers.BrowserProvider(window.ethereum)`. -/
inductive ProviderRef where
  | null
  | undefined
  | browserProvider
  deriving DecidableEq, Repr

/-- The six `useState` cells of `App`, in declaration order; `none` is `undefined`. -/
structure Session where
  signature : Option String
  account : Option String
  isActive : Bool
  provider : ProviderRef
  chainId : Option JSNumber
  signLoading : Bool
  deriving DecidableEq

/-- The values passed to `useState` (lines 13-20). -/
def Session.initial : Session :=
  { signature := none, account := none, isActive := false, provider := .null,
    chainId := none, signLoading := false }

def setSignature (v : Option String) (s : Session) : Session := { s with signature := v }

def setAccount (v : Option String) (s : Session) : Session := { s with account := v }

def setIsActive (v : Bool) (s : Session) : Session := { s with isActive := v }

def setProvider (v : ProviderRef) (s : Session) : Session := { s with provider := v }

def setChainId (v : Option JSNumber) (s : Session) : Session := { s with chainId := v }

def setSignLoading (v : Bool) (s : Session) : Session := { s with signLoading := v }

/-! ## Calls on the outside world -/

/-- Calls a handler makes on the wallet, the signer, the browser and the toast library. -/
inductive Effect where
  | ethereumRequest (method : String)
  | alert (msg : String)
  | consoleLog (msg : String)
  | getSigner
  | signMessage (message : List Nat)
  | toastSuccess (msg : String)
  | toastError (msg : String)
  | setTimeout (ms : Nat)
  deriving DecidableEq, Repr

/-- The closures handed to `setTimeout`. -/
inductive Callback where
  | signSuccess
  deriving DecidableEq, Repr

/-- A scheduled timer. -/
structure Timer where
  ms : Nat
  callback : Callback
  deriving DecidableEq, Repr

/-- The result of running a handler. -/
structure Run where
  state : Session
  effects : List Effect
  completion : Completion
  timers : List Timer

/-! ## `src/utils/index.js` -/

/-- The array `supportedChains`. -/
def supportedChains : List JSNumber := [.real 11155111, .real 84531]

/-- The function `isSupportedChain`: `supportedChains.includes(Number(chainId))`. -/
def isSupportedChain {V : Type} (Number : V → JSNumber) (chainId : V) : Bool :=
  supportedChains.contains (Number chainId)

/-! ## `src/App.jsx`: the session handlers -/

/-- The function `connect` (lines 39-49). `ethereum` is `none` when `window.ethereum` is
`undefined`, otherwise the reply of the wallet to `eth_requestAccounts`. The promise of the
request is returned from inside `try` without `await`: the `catch` clause is reached only when
the call itself throws, and the promise of `connect` takes the fate of the returned promise. -/
def connect (ethereum : Option (Settled (List String))) (s : Session) : Run :=
  match ethereum with
  | none => ⟨s, [.alert "not an ethereum-enabled browser"], .fulfilled, []⟩
  | some (.throws _) =>
    ⟨s, [.ethereumRequest "eth_requestAccounts", .consoleLog "error: "], .fulfilled, []⟩
  | some (.rejects e) => ⟨s, [.ethereumRequest "eth_requestAccounts"], .rejected e, []⟩
  | some (.resolves _) => ⟨s, [.ethereumRequest "eth_requestAccounts"], .fulfilled, []⟩

/-- The function `handleAccountChanged` (lines 51-72). `chainReply` is the reply of the wallet
to the `eth_chainId` request, awaited outside any `try`. -/
def handleAccountChanged {V : Type} (Number : V → JSNumber) (chainReply : Settled V)
    (accounts : List String) (s : Session) : Run :=
  if accounts.length = 0 then
    let s := setAccount none s
    let s := setChainId none s
    let s := setIsActive false s
    ⟨setProvider .null s, [], .fulfilled, []⟩
  else
    match chainReply with
    | .throws e => ⟨s, [.ethereumRequest "eth_chainId"], .rejected e, []⟩
    | .rejects e => ⟨s, [.ethereumRequest "eth_chainId"], .rejected e, []⟩
    | .resolves chain =>
      let s := setAccount accounts.head? s
      let s := setChainId (some (Number chain)) s
      if isSupportedChain Number chain then
        let s := setIsActive true s
        let s := setProvider .browserProvider s
        ⟨s, [.ethereumRequest "eth_chainId"], .fulfilled, []⟩
      else
        let s := setProvider .undefined s
        let s := setIsActive false s
        let s := setProvider .null s
        ⟨s, [.ethereumRequest "eth_chainId"], .fulfilled, []⟩

/-- The function `handleChainChanged` (lines 85-94); it is not `async`. -/
def handleChainChanged {V : Type} (Number : V → JSNumber) (chain : V) (s : Session) : Run :=
  let s := setChainId (some (Number chain)) s
  if isSupportedChain Number chain then
    let s := setIsActive true s
    let s := setProvider .browserProvider s
    ⟨s, [], .fulfilled, []⟩
  else
    let s := setIsActive false s
    let s := setProvider .null s
    ⟨s, [], .fulfilled, []⟩

/-- A notification delivered to the component by the wallet: `accountsChanged` with the list of
accounts, together with the reply the wallet gives to the `eth_chainId` request of the handler,
or `chainChanged` with the chain value. -/
inductive Notification (V : Type) where
  | accountsChanged (accounts : List String) (chainReply : Settled V)
  | chainChanged (chain : V)

/-- The session after the handler of one notification has run. -/
def notify {V : Type} (Number : V → JSNumber) (s : Session) : Notification V → Session
  | .accountsChanged accounts chainReply => (handleAccountChanged Number chainReply accounts s).state
  | .chainChanged chain => (handleChainChanged Number chain s).state

/-- The session after a sequence of notifications, from the initial state. -/
def sessionAfter {V : Type} (Number : V → JSNumber) (ns : List (Notification V)) : Session :=
  ns.foldl (notify Number) Session.initial

/-! ## The `ethers` functions reached by `signContract`

`signContract` calls `ethers.solidityPackedKeccak256` and `ethers.getBytes`. They are library
code (ethers v6), modelled here on the path the call takes: hexadecimal strings are lists of
characters, byte arrays are lists of numbers, and an assertion failure is an `Except.error`. -/

/-- The text typed into a form field is a `String`, a sequence of Unicode scalar values; a
JavaScript string stores it as UTF-16 code units, a surrogate pair for a scalar value from
0x10000 on. A JavaScript string with an unpaired surrogate is not a text in this sense. -/
def utf16CodeUnits (s : String) : List Nat :=
  s.toList.flatMap fun c =>
    if c.toNat < 0x10000 then [c.toNat]
    else [0xd800 + (c.toNat - 0x10000) / 0x400, 0xdc00 + (c.toNat - 0x10000) % 0x400]

/-- The loop of `toUtf8Bytes` over `str.charCodeAt(i)`, yielding the array `result`. -/
def toUtf8Result : List Nat → Except JSError (List Nat)
  | [] => .ok []
  | c :: rest =>
    if c < 0x80 then
      (toUtf8Result rest).map fun r => c :: r
    else if c < 0x800 then
      (toUtf8Result rest).map fun r => ((c >>> 6) ||| 0xc0) :: ((c &&& 0x3f) ||| 0x80) :: r
    else if c &&& 0xfc00 = 0xd800 then
      match rest with
      | [] => .error (.invalidArgument "invalid surrogate pair")
      | c2 :: rest2 =>
        if c2 &&& 0xfc00 = 0xdc00 then
          let pair := 0x10000 + ((c &&& 0x03ff) <<< 10) + (c2 &&& 0x03ff)
          (toUtf8Result rest2).map fun r =>
            ((pair >>> 18) ||| 0xf0) :: (((pair >>> 12) &&& 0x3f) ||| 0x80) ::
              (((pair >>> 6) &&& 0x3f) ||| 0x80) :: ((pair &&& 0x3f) ||| 0x80) :: r
        else .error (.invalidArgument "invalid surrogate pair")
    else
      (toUtf8Result rest).map fun r =>
        ((c >>> 12) ||| 0xe0) :: (((c >>> 6) &&& 0x3f) ||| 0x80) :: ((c &&& 0x3f) ||| 0x80) :: r

/-- The function `toUtf8Bytes`: `new Uint8Array(result)` stores every entry modulo 256. -/
def toUtf8Bytes (str : String) : Except JSError (List Nat) :=
  (toUtf8Result (utf16CodeUnits str)).map fun result => result.map (· % 256)

/-- The string `HexCharacters`. -/
def HexCharacters : List Char := "0123456789abcdef".toList

/-- The value `parseInt` gives one character of the class `[0-9a-f]` matched without regard to
case. -/
def hexDigitValue (c : Char) : Option Nat :=
  if '0' ≤ c ∧ c ≤ '9' then some (c.toNat - '0'.toNat)
  else if 'a' ≤ c ∧ c ≤ 'f' then some (c.toNat - 'a'.toNat + 10)
  else if 'A' ≤ c ∧ c ≤ 'F' then some (c.toNat - 'A'.toNat + 10)
  else none

/-- The part of `getBytes` after the prefix: the text matches `(?:[0-9a-f][0-9a-f])*` and each
pair of characters is read with `parseInt(_, 16)`. -/
def parseHexPairs : List Char → Option (List Nat)
  | [] => some []
  | [_] => none
  | hi :: lo :: rest =>
    match hexDigitValue hi, hexDigitValue lo, parseHexPairs rest with
    | some h, some l, some bytes => some ((16 * h + l) :: bytes)
    | _, _, _ => none

/-- The arguments `getBytes` accepts: a `Uint8Array` or a string. -/
inductive BytesLike where
  | array (bytes : List Nat)
  | string (value : List Char)

/-- The function `getBytes`: a `Uint8Array` is returned as it is, a string must match
`/^0x(?:[0-9a-f][0-9a-f])*$/i`. -/
def getBytes : BytesLike → Except JSError (List Nat)
  | .array bytes => .ok bytes
  | .string ('0' :: x :: digits) =>
    if x = 'x' ∨ x = 'X' then
      match parseHexPairs digits with
      | some bytes => .ok bytes
      | none => .error (.invalidArgument "invalid BytesLike value")
    else .error (.invalidArgument "invalid BytesLike value")
  | .string _ => .error (.invalidArgument "invalid BytesLike value")

/-- The function `hexlify`. -/
def hexlify (data : BytesLike) : Except JSError (List Char) :=
  (getBytes data).map fun bytes =>
    '0' :: 'x' :: bytes.flatMap fun v =>
      [HexCharacters.getD ((v &&& 0xf0) >>> 4) '0', HexCharacters.getD (v &&& 0x0f) '0']

/-- The function `concat`: `"0x" + datas.map((d) => hexlify(d).substring(2)).join("")`. -/
def concat (datas : List BytesLike) : Except JSError (List Char) :=
  (datas.mapM fun d => (hexlify d).map fun h => h.drop 2).map fun parts =>
    '0' :: 'x' :: parts.flatten

/-- The function `_pack` on the type names `string` and `bytes`. Its branches for the other
Solidity types (address, bool, integers, fixed-size bytes, arrays) are left out: they are not
reached from `signContract`, and every other type name ends here in the final `invalid type`
error. -/
def pack (type : String) (value : String) : Except JSError (List Nat) :=
  if type = "string" then toUtf8Bytes value
  else if type = "bytes" then getBytes (.string value.toList)
  else .error (.invalidArgument "invalid type")

/-- The function `solidityPacked`. -/
def solidityPacked (types : List String) (values : List String) : Except JSError (List Char) :=
  if types.length = values.length then do
    let tight ← (types.zip values).mapM fun tv => pack tv.1 tv.2
    let joined ← concat (tight.map BytesLike.array)
    hexlify (.string joined)
  else .error (.invalidArgument "wrong number of values")

/-! ### Keccak-256 -/

/-- The all-ones 64-bit lane. -/
def mask64 : Nat := 2 ^ 64 - 1

/-- Rotation of a 64-bit lane to the left by `n` bits. -/
def rotl64 (x n : Nat) : Nat := ((x <<< n) ||| (x >>> (64 - n))) % 2 ^ 64

/-- The rotation offsets of the step rho, lane `(x, y)` at index `x + 5 * y`. -/
def rotationOffsets : List Nat :=
  [0, 1, 62, 28, 27, 36, 44, 6, 55, 20, 3, 10, 43, 25, 39, 41, 45, 15, 21, 8, 18, 2, 61, 56, 14]

/-- The 24 round constants of the step iota. -/
def roundConstants : List Nat :=
  [0x0000000000000001, 0x0000000000008082, 0x800000000000808A, 0x8000000080008000,
   0x000000000000808B, 0x0000000080000001, 0x8000000080008081, 0x8000000000008009,
   0x000000000000008A, 0x0000000000000088, 0x0000000080008009, 0x000000008000000A,
   0x000000008000808B, 0x800000000000008B, 0x8000000000008089, 0x8000000000008003,
   0x8000000000008002, 0x8000000000000080, 0x000000000000800A, 0x800000008000000A,
   0x8000000080008081, 0x8000000000008080, 0x0000000080000001, 0x8000000080008008]

/-- The lane `(x, y)` of a state of 25 lanes, coordinates taken modulo 5. -/
def lane (a : List Nat) (x y : Nat) : Nat := a.getD (x % 5 + 5 * (y % 5)) 0

/-- The step theta: every lane is xored with the parities of two neighbouring columns. -/
def theta (a : List Nat) : List Nat :=
  let c := (List.range 5).map fun x =>
    lane a x 0 ^^^ lane a x 1 ^^^ lane a x 2 ^^^ lane a x 3 ^^^ lane a x 4
  let d := (List.range 5).map fun x => c.getD ((x + 4) % 5) 0 ^^^ rotl64 (c.getD ((x + 1) % 5) 0) 1
  (List.range 25).map fun i => a.getD i 0 ^^^ d.getD (i % 5) 0

/-- The steps rho and pi: the lane `(x, y)` of the result is the rotated lane
`(x + 3 * y, x)` of the argument. -/
def rhoPi (a : List Nat) : List Nat :=
  (List.range 25).map fun i =>
    let x := i % 5
    let y := i / 5
    let sx := (x + 3 * y) % 5
    rotl64 (lane a sx x) (rotationOffsets.getD (sx + 5 * x) 0)

/-- The step chi. -/
def chi (b : List Nat) : List Nat :=
  (List.range 25).map fun i =>
    let x := i % 5
    let y := i / 5
    lane b x y ^^^ ((lane b (x + 1) y ^^^ mask64) &&& lane b (x + 2) y)

/-- The step iota: the round constant is xored into lane `(0, 0)`. -/
def iota (rc : Nat) (a : List Nat) : List Nat :=
  match a with
  | [] => []
  | a0 :: rest => (a0 ^^^ rc) :: rest

/-- One round of the permutation. -/
def keccakRound (a : List Nat) (rc : Nat) : List Nat := iota rc (chi (rhoPi (theta a)))

/-- The permutation Keccak-f[1600]. -/
def keccakF1600 (a : List Nat) : List Nat := roundConstants.foldl keccakRound a

/-- The lanes of a block of bytes, little-endian, padded with zero lanes to 25. -/
def lanesOfBytes (bs : List Nat) : List Nat :=
  (List.range 25).map fun i =>
    ((List.range 8).map fun j => bs.getD (8 * i + j) 0 <<< (8 * j)).foldl (· ||| ·) 0

/-- Absorption of one block into the state. -/
def absorb (a : List Nat) (block : List Nat) : List Nat :=
  keccakF1600 (List.zipWith (· ^^^ ·) a (lanesOfBytes block))

/-- The padding of Keccak (first bit and last bit set) to a multiple of `rate` bytes. -/
def pad (rate : Nat) (msg : List Nat) : List Nat :=
  let k := rate - msg.length % rate
  if k = 1 then msg ++ [0x81]
  else msg ++ [0x01] ++ List.replicate (k - 2) 0 ++ [0x80]

/-- The blocks of `rate` bytes of a padded message. -/
def blocks (rate : Nat) (bs : List Nat) : List (List Nat) :=
  (List.range (bs.length / rate)).map fun i => (bs.drop (rate * i)).take rate

/-- The hash Keccak-256 (rate 136 bytes, output 32 bytes), the function `keccak_256` that
ethers takes from its hashing dependency. -/
def keccak_256 (msg : List Nat) : List Nat :=
  let st := (blocks 136 (pad 136 msg)).foldl absorb (List.replicate 25 0)
  (List.range 32).map fun i => (st.getD (i / 8) 0 >>> (8 * (i % 8))) % 256

/-- The function `keccak256` of ethers. -/
def keccak256 (data : BytesLike) : Except JSError (List Char) := do
  let bytes ← getBytes data
  hexlify (.array (keccak_256 bytes))

/-- The function `solidityPackedKeccak256`. -/
def solidityPackedKeccak256 (types : List String) (values : List String) :
    Except JSError (List Char) := do
  let packed ← solidityPacked types values
  keccak256 (.string packed)

/-! ## `src/App.jsx`: the signing request -/

/-- The values of the form handed to `signContract` by `handleSubmit`. -/
structure FormInput where
  name : String
  email : String
  message : String
  deriving DecidableEq, Repr

/-- The signer obtained from the provider: the reply it gives to `signMessage(message)`. -/
structure Signer where
  signMessage : List Nat → Settled String

/-- The `catch` clause of `signContract` (lines 136-139). -/
def signContractCatch (s : Session) (effects : List Effect) : Run :=
  ⟨setSignLoading false s, effects ++ [.toastError "Error occurred"], .fulfilled, []⟩

/-- The function `signContract` (lines 113-140). `signerReply` is the reply of
`provider.getSigner()`, awaited before the `try` block; on `null` the member access throws a
`TypeError`. -/
def signContract (signerReply : Settled Signer) (data : FormInput) (s : Session) : Run :=
  let s1 := setSignLoading true s
  match s.provider with
  | .null =>
    ⟨s1, [], .rejected (.typeError "Cannot read properties of null (reading 'getSigner')"), []⟩
  | .undefined =>
    ⟨s1, [],
      .rejected (.typeError "Cannot read properties of undefined (reading 'getSigner')"), []⟩
  | .browserProvider =>
    match signerReply with
    | .throws e => ⟨s1, [.getSigner], .rejected e, []⟩
    | .rejects e => ⟨s1, [.getSigner], .rejected e, []⟩
    | .resolves signer =>
      let myStructType := ["string", "string", "string"]
      let myStructData := [data.name, data.email, data.message]
      match solidityPackedKeccak256 myStructType myStructData with
      | .error _ => signContractCatch s1 [.getSigner]
      | .ok packedData =>
        match getBytes (.string packedData) with
        | .error _ => signContractCatch s1 [.getSigner]
        | .ok message =>
          match signer.signMessage message with
          | .throws _ => signContractCatch s1 [.getSigner, .signMessage message]
          | .rejects _ => signContractCatch s1 [.getSigner, .signMessage message]
          | .resolves sig =>
            ⟨setSignature (some sig) s1, [.getSigner, .signMessage message, .setTimeout 1500],
              .fulfilled, [⟨1500, .signSuccess⟩]⟩

/-- The body of a scheduled closure (lines 131-134). -/
def Callback.run : Callback → Session → Run
  | .signSuccess, s =>
    ⟨setSignLoading false s, [.toastSuccess "Message signature successful"], .fulfilled, []⟩

/-- The session once the handler and the timers it scheduled have run. -/
def Run.settled (r : Run) : Session :=
  r.timers.foldl (fun s t => (t.callback.run s).state) r.state

/-- The messages handed to `signer.signMessage` during a run. -/
def signedMessages (r : Run) : List (List Nat) :=
  r.effects.filterMap fun
    | .signMessage m => some m
    | _ => none

/-! ## Notions used to state the properties -/

/-- The UTF-8 encoding of one Unicode scalar value (RFC 3629, section 3). -/
def utf8EncodeScalar (n : Nat) : List Nat :=
  if n < 0x80 then [n]
  else if n < 0x800 then [0xc0 + n / 0x40, 0x80 + n % 0x40]
  else if n < 0x10000 then [0xe0 + n / 0x1000, 0x80 + n / 0x40 % 0x40, 0x80 + n % 0x40]
  else [0xf0 + n / 0x40000, 0x80 + n / 0x1000 % 0x40, 0x80 + n / 0x40 % 0x40, 0x80 + n % 0x40]

/-- The UTF-8 encoding of a text. -/
def utf8Encode (s : String) : List Nat := s.toList.flatMap fun c => utf8EncodeScalar c.toNat

/-- The hexadecimal text `hexlify` writes for a byte array, without the `0x` prefix. -/
def hexText (bytes : List Nat) : List Char :=
  bytes.flatMap fun v =>
    [HexCharacters.getD ((v &&& 0xf0) >>> 4) '0', HexCharacters.getD (v &&& 0x0f) '0']

/-- A list of byte values. -/
def IsBytes (bytes : List Nat) : Prop := ∀ b ∈ bytes, b < 256

/-- The bytes the description of the signing step names: the Keccak-256 hash of the UTF-8
encodings of name, email and message, concatenated in this order. -/
def keccakOfUtf8 (data : FormInput) : List Nat :=
  keccak_256 (utf8Encode data.name ++ utf8Encode data.email ++ utf8Encode data.message)

/-- The stored chain id is a member of the whitelist (`undefined` is not). -/
def Session.chainIdSupported (s : Session) : Prop :=
  ∃ n, s.chainId = some n ∧ n ∈ supportedChains

/-- The invariant of the data model: `isActive` tells whether the stored chain id is
whitelisted, and off the whitelist the provider is `null`. -/
def Session.Invariant (s : Session) : Prop :=
  (s.isActive = true ↔ s.chainIdSupported) ∧ (¬ s.chainIdSupported → s.provider = .null)

/-! # Properties -/

/-! ## UTF-8 -/

theorem or_0x80 : ∀ x, x < 64 → x ||| 0x80 = 0x80 + x := by decide
theorem or_0xc0 : ∀ x, x < 32 → x ||| 0xc0 = 0xc0 + x := by decide
theorem or_0xe0 : ∀ x, x < 16 → x ||| 0xe0 = 0xe0 + x := by decide
theorem or_0xf0 : ∀ x, x < 8 → x ||| 0xf0 = 0xf0 + x := by decide

theorem and_0x3f (n : Nat) : n &&& 0x3f = n % 64 := Nat.and_pow_two_sub_one_eq_mod n 6
theorem and_0x3ff (n : Nat) : n &&& 0x3ff = n % 1024 := Nat.and_pow_two_sub_one_eq_mod n 10

set_option maxRecDepth 100000 in
theorem low_and_0xfc00 : ∀ r, r < 1024 → r &&& 0xfc00 = 0 := by decide

theorem high_and_0xfc00 : ∀ q, q < 64 → (2 ^ 10 * q) &&& 0xfc00 = 1024 * q := by decide

theorem split_and_0xfc00 (q r : Nat) (hq : q < 64) (hr : r < 1024) :
    (2 ^ 10 * q + r) &&& 0xfc00 = 1024 * q := by
  have h2 : r < 2 ^ 10 := by omega
  rw [Nat.mul_add_lt_is_or h2, Nat.and_distrib_right, low_and_0xfc00 r hr,
    high_and_0xfc00 q hq]
  simp

theorem and_0xfc00 (n : Nat) (h : n < 0x10000) : n &&& 0xfc00 = 1024 * (n / 1024) := by
  have h1 : 2 ^ 10 * (n / 1024) + n % 1024 = n := by omega
  have h3 := split_and_0xfc00 (n / 1024) (n % 1024) (by omega) (by omega)
  rw [h1] at h3
  exact h3

theorem toUtf8Result_scalar (c : Char) (rest : List Nat) :
    toUtf8Result ((if c.toNat < 0x10000 then [c.toNat]
      else [0xd800 + (c.toNat - 0x10000) / 0x400, 0xdc00 + (c.toNat - 0x10000) % 0x400]) ++ rest) =
      (toUtf8Result rest).map fun r => utf8EncodeScalar c.toNat ++ r := by
  have hv : c.toNat < 0xd800 ∨ (0xdfff < c.toNat ∧ c.toNat < 0x110000) := c.valid
  generalize c.toNat = n at hv ⊢
  by_cases h1 : n < 0x80
  · have h0 : n < 0x10000 := by omega
    simp only [h0, if_true, List.singleton_append, utf8EncodeScalar, h1]
    rw [toUtf8Result.eq_def]
    simp only [h1, if_true]
  · by_cases h2 : n < 0x800
    · have h0 : n < 0x10000 := by omega
      have e1 : n >>> 6 ||| 0xc0 = 0xc0 + n / 0x40 := by
        rw [Nat.shiftRight_eq_div_pow, or_0xc0 _ (by omega)]
      have e2 : n &&& 0x3f ||| 0x80 = 0x80 + n % 0x40 := by
        rw [and_0x3f, or_0x80 _ (by omega)]
      simp only [h0, if_true, List.singleton_append, h1, h2, if_false,
        utf8EncodeScalar, List.cons_append, List.nil_append]
      rw [toUtf8Result.eq_def]
      simp only [h1, h2, if_true, if_false, e1, e2]
    · by_cases h3 : n < 0x10000
      · have hs : ¬ (n &&& 0xfc00 = 0xd800) := by
          rw [and_0xfc00 n h3]; omega
        have e1 : n >>> 12 ||| 0xe0 = 0xe0 + n / 0x1000 := by
          rw [Nat.shiftRight_eq_div_pow, or_0xe0 _ (by omega)]
        have e2 : n >>> 6 &&& 0x3f ||| 0x80 = 0x80 + n / 0x40 % 0x40 := by
          rw [Nat.shiftRight_eq_div_pow, and_0x3f, or_0x80 _ (by omega)]
        have e3 : n &&& 0x3f ||| 0x80 = 0x80 + n % 0x40 := by
          rw [and_0x3f, or_0x80 _ (by omega)]
        simp only [h3, if_true, List.singleton_append, h1, h2, if_false,
          utf8EncodeScalar, List.cons_append, List.nil_append]
        rw [toUtf8Result.eq_def]
        simp only [h1, h2, hs, if_true, if_false, e1, e2, e3]
      · have hn : n < 0x110000 := by omega
        have a1 : ¬ (0xd800 + (n - 0x10000) / 0x400 < 0x80) := by omega
        have a2 : ¬ (0xd800 + (n - 0x10000) / 0x400 < 0x800) := by omega
        have a3 : (0xd800 + (n - 0x10000) / 0x400) &&& 0xfc00 = 0xd800 := by
          rw [and_0xfc00 _ (by omega)]; omega
        have a4 : (0xdc00 + (n - 0x10000) % 0x400) &&& 0xfc00 = 0xdc00 := by
          rw [and_0xfc00 _ (by omega)]; omega
        have a5 : 0x10000 + (((0xd800 + (n - 0x10000) / 0x400) &&& 0x3ff) <<< 10) +
            ((0xdc00 + (n - 0x10000) % 0x400) &&& 0x3ff) = n := by
          rw [and_0x3ff, and_0x3ff, Nat.shiftLeft_eq]; omega
        have e1 : n >>> 18 ||| 0xf0 = 0xf0 + n / 0x40000 := by
          rw [Nat.shiftRight_eq_div_pow, or_0xf0 _ (by omega)]
        have e2 : n >>> 12 &&& 0x3f ||| 0x80 = 0x80 + n / 0x1000 % 0x40 := by
          rw [Nat.shiftRight_eq_div_pow, and_0x3f, or_0x80 _ (by omega)]
        have e3 : n >>> 6 &&& 0x3f ||| 0x80 = 0x80 + n / 0x40 % 0x40 := by
          rw [Nat.shiftRight_eq_div_pow, and_0x3f, or_0x80 _ (by omega)]
        have e4 : n &&& 0x3f ||| 0x80 = 0x80 + n % 0x40 := by
          rw [and_0x3f, or_0x80 _ (by omega)]
        simp only [h3, if_false, List.cons_append, List.nil_append, toUtf8Result, a1, a2, a3,
          a4, a5, if_true, utf8EncodeScalar, h1, h2, e1, e2, e3, e4]

theorem toUtf8Result_utf16 (cs : List Char) :
    toUtf8Result (cs.flatMap fun c =>
      if c.toNat < 0x10000 then [c.toNat]
      else [0xd800 + (c.toNat - 0x10000) / 0x400, 0xdc00 + (c.toNat - 0x10000) % 0x400]) =
      .ok (cs.flatMap fun c => utf8EncodeScalar c.toNat) := by
  induction cs with
  | nil => rfl
  | cons c cs ih =>
    rw [List.flatMap_cons, toUtf8Result_scalar, ih]
    rfl

theorem utf8EncodeScalar_lt (n : Nat) (h : n < 0x110000) : ∀ b ∈ utf8EncodeScalar n, b < 256 := by
  intro b hb
  unfold utf8EncodeScalar at hb
  split_ifs at hb <;> simp at hb <;> omega

theorem utf8Encode_lt (s : String) : ∀ b ∈ utf8Encode s, b < 256 := by
  intro b hb
  simp only [utf8Encode, List.mem_flatMap] at hb
  obtain ⟨c, -, hb⟩ := hb
  have hv : c.toNat < 0xd800 ∨ (0xdfff < c.toNat ∧ c.toNat < 0x110000) := c.valid
  exact utf8EncodeScalar_lt _ (by omega) b hb

theorem map_mod_of_lt (bs : List Nat) (h : ∀ b ∈ bs, b < 256) : bs.map (· % 256) = bs := by
  induction bs with
  | nil => rfl
  | cons b bs ih =>
    simp only [List.map_cons, List.cons.injEq]
    exact ⟨Nat.mod_eq_of_lt (h b (by simp)), ih fun x hx => h x (by simp [hx])⟩

theorem toUtf8Bytes_eq (s : String) : toUtf8Bytes s = .ok (utf8Encode s) := by
  unfold toUtf8Bytes utf16CodeUnits
  rw [toUtf8Result_utf16]
  show Except.ok _ = _
  congr 1
  exact map_mod_of_lt _ (utf8Encode_lt s)

theorem uint8_or_toNat (a b : UInt8) : (a ||| b).toNat = a.toNat ||| b.toNat :=
  BitVec.toNat_or ..

theorem uint32_shr_toNat (v : UInt32) (k : Nat) (hk : k < 32) :
    (v >>> (OfNat.ofNat k : UInt32)).toNat = v.toNat >>> k := by
  show (v.toBitVec >>> (UInt32.ofNat k % 32).toBitVec).toNat = _
  rw [BitVec.ushiftRight_eq', BitVec.toNat_ushiftRight]
  congr 1
  show (UInt32.ofNat k % 32).toNat = k
  rw [UInt32.toNat_mod, UInt32.toNat_ofNat_of_lt (by unfold UInt32.size; omega)]
  show k % 32 = k
  omega

theorem uint32_toUInt8_toNat (v : UInt32) : v.toUInt8.toNat = v.toNat % 256 := by
  show (UInt8.ofNat v.toNat).toNat = _
  rfl

theorem uint8_lit_toNat (k : Nat) (hk : k < 256) : (OfNat.ofNat k : UInt8).toNat = k := by
  show (UInt8.ofNat k).toNat = k
  exact UInt8.toNat_ofNat_of_lt hk

theorem uint32_le_lit (v : UInt32) (k : Nat) (hk : k < 4294967296) :
    v ≤ (OfNat.ofNat k : UInt32) ↔ v.toNat ≤ k := by
  show v.toNat ≤ (UInt32.ofNat k).toNat ↔ _
  rw [UInt32.toNat_ofNat_of_lt hk]

theorem and_0x1f (n : Nat) : n &&& 0x1f = n % 32 := Nat.and_pow_two_sub_one_eq_mod n 5
theorem and_0x0f (n : Nat) : n &&& 0x0f = n % 16 := Nat.and_pow_two_sub_one_eq_mod n 4
theorem and_0x07 (n : Nat) : n &&& 0x07 = n % 8 := Nat.and_pow_two_sub_one_eq_mod n 3

theorem utf8EncodeChar_toNat (c : Char) :
    (String.utf8EncodeChar c).map UInt8.toNat = utf8EncodeScalar c.toNat := by
  have hv : c.toNat < 0xd800 ∨ (0xdfff < c.toNat ∧ c.toNat < 0x110000) := c.valid
  have s6 := uint32_shr_toNat c.val 6 (by omega)
  have s12 := uint32_shr_toNat c.val 12 (by omega)
  have s18 := uint32_shr_toNat c.val 18 (by omega)
  unfold String.utf8EncodeChar utf8EncodeScalar
  simp only [Char.toNat] at hv ⊢
  simp only [uint32_le_lit _ _ (by norm_num : (0x7f : Nat) < 4294967296),
    uint32_le_lit _ _ (by norm_num : (0x7ff : Nat) < 4294967296),
    uint32_le_lit _ _ (by norm_num : (0xffff : Nat) < 4294967296)]
  simp only [apply_ite (List.map UInt8.toNat), List.map_cons, List.map_nil, uint8_or_toNat,
    UInt8.and_toNat, uint32_toUInt8_toNat, s6, s12, s18,
    uint8_lit_toNat _ (by norm_num : (0x1f : Nat) < 256),
    uint8_lit_toNat _ (by norm_num : (0x0f : Nat) < 256),
    uint8_lit_toNat _ (by norm_num : (0x07 : Nat) < 256),
    uint8_lit_toNat _ (by norm_num : (0x3f : Nat) < 256),
    uint8_lit_toNat _ (by norm_num : (0x80 : Nat) < 256),
    uint8_lit_toNat _ (by norm_num : (0xc0 : Nat) < 256),
    uint8_lit_toNat _ (by norm_num : (0xe0 : Nat) < 256),
    uint8_lit_toNat _ (by norm_num : (0xf0 : Nat) < 256)]
  generalize hn : c.val.toNat = n at hv
  simp only [Nat.shiftRight_eq_div_pow, and_0x3f, and_0x1f, and_0x0f, and_0x07]
  have o80 : ∀ x, x % 64 ||| 128 = 128 + x % 64 := fun x => or_0x80 _ (Nat.mod_lt _ (by norm_num))
  have oc0 : ∀ x, x % 32 ||| 192 = 192 + x % 32 := fun x => or_0xc0 _ (Nat.mod_lt _ (by norm_num))
  have oe0 : ∀ x, x % 16 ||| 224 = 224 + x % 16 := fun x => or_0xe0 _ (Nat.mod_lt _ (by norm_num))
  have of0 : ∀ x, x % 8 ||| 240 = 240 + x % 8 := fun x => or_0xf0 _ (Nat.mod_lt _ (by norm_num))
  simp only [o80, oc0, oe0, of0]
  split_ifs <;> simp only [List.cons.injEq, and_true] <;> omega

theorem utf8Encode_eq_toUTF8 (s : String) :
    utf8Encode s = s.toUTF8.data.toList.map UInt8.toNat := by
  show _ = List.map UInt8.toNat (s.data.flatMap String.utf8EncodeChar)
  unfold utf8Encode
  show s.data.flatMap _ = _
  induction s.data with
  | nil => rfl
  | cons c cs ih => simp only [List.flatMap_cons, List.map_append, ih, utf8EncodeChar_toNat]


/-! ## Hexadecimal text and packing -/

set_option maxRecDepth 1000000 in
theorem hexDigit_roundtrip : ∀ v, v < 256 →
    hexDigitValue (HexCharacters.getD ((v &&& 0xf0) >>> 4) '0') = some (v / 16) ∧
      hexDigitValue (HexCharacters.getD (v &&& 0x0f) '0') = some (v % 16) := by
  decide

theorem hexText_append (a b : List Nat) : hexText (a ++ b) = hexText a ++ hexText b := by
  simp [hexText]

theorem isBytes_append {a b : List Nat} (ha : IsBytes a) (hb : IsBytes b) : IsBytes (a ++ b) := by
  intro x hx
  rcases List.mem_append.1 hx with h | h
  · exact ha x h
  · exact hb x h

theorem parseHexPairs_hexText (bytes : List Nat) (h : IsBytes bytes) :
    parseHexPairs (hexText bytes) = some bytes := by
  induction bytes with
  | nil => rfl
  | cons v bytes ih =>
    have hv := hexDigit_roundtrip v (h v (by simp))
    have ih := ih fun x hx => h x (by simp [hx])
    have hlt : v < 256 := h v (by simp)
    have e : 16 * (v / 16) + v % 16 = v := by omega
    show parseHexPairs (_ :: _ :: hexText bytes) = _
    simp only [parseHexPairs, hv.1, hv.2, ih, e]

theorem hexlify_array (bytes : List Nat) :
    hexlify (.array bytes) = .ok ('0' :: 'x' :: hexText bytes) := rfl

theorem getBytes_hexText (bytes : List Nat) (h : IsBytes bytes) :
    getBytes (.string ('0' :: 'x' :: hexText bytes)) = .ok bytes := by
  simp [getBytes, parseHexPairs_hexText bytes h]

theorem hexlify_hexText (bytes : List Nat) (h : IsBytes bytes) :
    hexlify (.string ('0' :: 'x' :: hexText bytes)) = .ok ('0' :: 'x' :: hexText bytes) := by
  unfold hexlify
  rw [getBytes_hexText bytes h]
  rfl

theorem concat_three (a b c : List Nat) :
    concat [.array a, .array b, .array c] = .ok ('0' :: 'x' :: hexText (a ++ b ++ c)) := by
  have e : concat [.array a, .array b, .array c] =
      .ok ('0' :: 'x' :: [hexText a, hexText b, hexText c].flatten) := rfl
  rw [e, hexText_append, hexText_append]
  simp

theorem isBytes_utf8Encode (s : String) : IsBytes (utf8Encode s) := utf8Encode_lt s

theorem solidityPacked_strings (name email message : String) :
    solidityPacked ["string", "string", "string"] [name, email, message] =
      .ok ('0' :: 'x' :: hexText (utf8Encode name ++ utf8Encode email ++ utf8Encode message)) := by
  have hb : IsBytes (utf8Encode name ++ utf8Encode email ++ utf8Encode message) :=
    isBytes_append (isBytes_append (isBytes_utf8Encode _) (isBytes_utf8Encode _))
      (isBytes_utf8Encode _)
  have e : ∀ v, pack "string" v = .ok (utf8Encode v) := fun v => by
    simp only [pack, if_true]
    exact toUtf8Bytes_eq v
  simp only [solidityPacked, List.length_cons, List.length_nil, if_true, List.zip_cons_cons,
    List.zip_nil_right, List.mapM, List.mapM.loop, e]
  show (concat [.array _, .array _, .array _] >>= fun joined => hexlify (.string joined)) = _
  rw [concat_three]
  exact hexlify_hexText _ hb

theorem isBytes_keccak_256 (msg : List Nat) : IsBytes (keccak_256 msg) := by
  intro b hb
  simp only [keccak_256, List.mem_map] at hb
  obtain ⟨i, -, rfl⟩ := hb
  exact Nat.mod_lt _ (by norm_num)

theorem keccak256_hexText (bytes : List Nat) (h : IsBytes bytes) :
    keccak256 (.string ('0' :: 'x' :: hexText bytes)) =
      .ok ('0' :: 'x' :: hexText (keccak_256 bytes)) := by
  unfold keccak256
  rw [getBytes_hexText bytes h]
  rfl

/-! ## The session invariant -/

theorem isSupportedChain_iff {V : Type} (Number : V → JSNumber) (c : V) :
    isSupportedChain Number c = true ↔ Number c ∈ supportedChains := by
  simp [isSupportedChain]

theorem mem_supportedChains (n : JSNumber) :
    n ∈ supportedChains ↔ n = .real 11155111 ∨ n = .real 84531 := by
  simp [supportedChains]

theorem invariant_initial : Session.initial.Invariant := by
  simp [Session.Invariant, Session.chainIdSupported, Session.initial]

theorem invariant_handleChainChanged {V : Type} (Number : V → JSNumber) (c : V) (s : Session) :
    (handleChainChanged Number c s).state.Invariant := by
  by_cases h : isSupportedChain Number c = true
  · have hm := (isSupportedChain_iff Number c).1 h
    simp [handleChainChanged, h, Session.Invariant, Session.chainIdSupported, setChainId,
      setIsActive, setProvider, hm]
  · have hm : Number c ∉ supportedChains := fun hm => h ((isSupportedChain_iff Number c).2 hm)
    simp [handleChainChanged, h, Session.Invariant, Session.chainIdSupported, setChainId,
      setIsActive, setProvider, hm]

theorem invariant_handleAccountChanged {V : Type} (Number : V → JSNumber) (reply : Settled V)
    (accounts : List String) (s : Session) (hs : s.Invariant) :
    (handleAccountChanged Number reply accounts s).state.Invariant := by
  unfold handleAccountChanged
  split
  · simp [Session.Invariant, Session.chainIdSupported, setChainId, setIsActive, setProvider,
      setAccount]
  · cases reply with
    | throws e => exact hs
    | rejects e => exact hs
    | resolves c =>
      by_cases h : isSupportedChain Number c = true
      · have hm := (isSupportedChain_iff Number c).1 h
        simp [h, Session.Invariant, Session.chainIdSupported, setChainId, setIsActive,
          setProvider, setAccount, hm]
      · have hm : Number c ∉ supportedChains :=
          fun hm => h ((isSupportedChain_iff Number c).2 hm)
        simp [h, Session.Invariant, Session.chainIdSupported, setChainId, setIsActive,
          setProvider, setAccount, hm]

theorem invariant_notify {V : Type} (Number : V → JSNumber) (s : Session) (n : Notification V)
    (hs : s.Invariant) : (notify Number s n).Invariant := by
  cases n with
  | accountsChanged accounts reply => exact invariant_handleAccountChanged Number reply accounts s hs
  | chainChanged c => exact invariant_handleChainChanged Number c s

theorem invariant_foldl {V : Type} (Number : V → JSNumber) (ns : List (Notification V))
    (s : Session) (hs : s.Invariant) : (ns.foldl (notify Number) s).Invariant := by
  induction ns generalizing s with
  | nil => exact hs
  | cons n ns ih => exact ih _ (invariant_notify Number s n hs)

/-- C1. In every session reached from the initial state by a sequence of `handleAccountChanged`
and `handleChainChanged` runs, `isActive` is true exactly when the stored `chainId` is one of
the whitelisted numbers 11155111 and 84531, and `provider` is `null` whenever it is not. -/
theorem C1_session_invariant {V : Type} (Number : V → JSNumber) (ns : List (Notification V)) :
    ((sessionAfter Number ns).isActive = true ↔
        ((sessionAfter Number ns).chainId = some (.real 11155111) ∨
          (sessionAfter Number ns).chainId = some (.real 84531))) ∧
      (¬ ((sessionAfter Number ns).chainId = some (.real 11155111) ∨
          (sessionAfter Number ns).chainId = some (.real 84531)) →
        (sessionAfter Number ns).provider = .null) := by
  have h := invariant_foldl Number ns Session.initial invariant_initial
  have hiff : (sessionAfter Number ns).chainIdSupported ↔
      ((sessionAfter Number ns).chainId = some (.real 11155111) ∨
        (sessionAfter Number ns).chainId = some (.real 84531)) := by
    simp only [Session.chainIdSupported, mem_supportedChains]
    constructor
    · rintro ⟨n, hn, h1 | h1⟩
      · exact Or.inl (by rw [hn, h1])
      · exact Or.inr (by rw [hn, h1])
    · rintro (h1 | h1)
      · exact ⟨_, h1, Or.inl rfl⟩
      · exact ⟨_, h1, Or.inr rfl⟩
  exact ⟨h.1.trans hiff, fun hn => h.2 (fun hc => hn (hiff.1 hc))⟩

theorem C1_session_invariant_witness :
    ¬ ((sessionAfter id
          [.accountsChanged ["0x71C7656EC7ab88b098defB751B7401B5f6d8976F"]
              (.resolves (.real 11155111)),
            .chainChanged (.real 1)]).chainId = some (.real 11155111) ∨
        (sessionAfter id
          [.accountsChanged ["0x71C7656EC7ab88b098defB751B7401B5f6d8976F"]
              (.resolves (.real 11155111)),
            .chainChanged (.real 1)]).chainId = some (.real 84531)) ∧
      (sessionAfter id
        [.accountsChanged ["0x71C7656EC7ab88b098defB751B7401B5f6d8976F"]
            (.resolves (.real 11155111)),
          .chainChanged (.real 1)]).provider = .null :=
  ⟨by decide, (C1_session_invariant id
    [.accountsChanged ["0x71C7656EC7ab88b098defB751B7401B5f6d8976F"]
        (.resolves (.real 11155111)),
      .chainChanged (.real 1)]).2 (by decide)⟩

/-! ## The notification handlers -/

/-- C2. After `handleChainChanged(c)`, and after `handleAccountChanged` with a non-empty list of
accounts while the wallet reports chain `c`: if `Number(c)` is 11155111 or 84531 then `isActive`
is true and `provider` is not `null` (it is the new `BrowserProvider`), otherwise `isActive` is
false and `provider` is `null`. -/
theorem C2_active_and_provider_follow_whitelist {V : Type} (Number : V → JSNumber) (c : V)
    (a : String) (rest : List String) (s : Session) :
    let chainRun := (handleChainChanged Number c s).state
    let accountRun := (handleAccountChanged Number (.resolves c) (a :: rest) s).state
    if Number c = .real 11155111 ∨ Number c = .real 84531 then
      (chainRun.isActive = true ∧ chainRun.provider = .browserProvider ∧
        chainRun.provider ≠ .null) ∧
      (accountRun.isActive = true ∧ accountRun.provider = .browserProvider ∧
        accountRun.provider ≠ .null)
    else
      (chainRun.isActive = false ∧ chainRun.provider = .null) ∧
      (accountRun.isActive = false ∧ accountRun.provider = .null) := by
  intro chainRun accountRun
  by_cases h : isSupportedChain Number c = true
  · have hm := (mem_supportedChains _).1 ((isSupportedChain_iff Number c).1 h)
    simp [chainRun, accountRun, handleChainChanged, handleAccountChanged, h, hm, setChainId,
      setIsActive, setProvider, setAccount]
  · have hm : ¬ (Number c = .real 11155111 ∨ Number c = .real 84531) :=
      fun hm => h ((isSupportedChain_iff Number c).2 ((mem_supportedChains _).2 hm))
    simp [chainRun, accountRun, handleChainChanged, handleAccountChanged, h, hm, setChainId,
      setIsActive, setProvider, setAccount]

/-- C3. From every prior session, and whatever the wallet would reply, `handleAccountChanged`
with an empty list of accounts leaves `account` and `chainId` undefined, `isActive` false and
`provider` null, and makes no call on the wallet (no `eth_chainId` request). -/
theorem C3_empty_accounts_reset {V : Type} (Number : V → JSNumber) (reply : Settled V)
    (s : Session) :
    (handleAccountChanged Number reply [] s).state.account = none ∧
      (handleAccountChanged Number reply [] s).state.chainId = none ∧
      (handleAccountChanged Number reply [] s).state.isActive = false ∧
      (handleAccountChanged Number reply [] s).state.provider = .null ∧
      (handleAccountChanged Number reply [] s).effects = [] ∧
      Effect.ethereumRequest "eth_chainId" ∉ (handleAccountChanged Number reply [] s).effects := by
  simp [handleAccountChanged, setChainId, setIsActive, setProvider, setAccount]

/-- C8. For a non-empty list of accounts and a chain value `c` reported by the wallet,
`handleAccountChanged` sets `account` to the first entry of the list and `chainId` to
`Number(c)`, whatever the prior session was. -/
theorem C8_account_and_chainId_set {V : Type} (Number : V → JSNumber) (c : V) (a : String)
    (rest : List String) (s : Session) :
    (handleAccountChanged Number (.resolves c) (a :: rest) s).state.account = some a ∧
      (handleAccountChanged Number (.resolves c) (a :: rest) s).state.chainId =
        some (Number c) := by
  by_cases h : isSupportedChain Number c = true <;>
    simp [handleAccountChanged, h, setChainId, setIsActive, setProvider, setAccount]

/-- C9. `handleChainChanged(c)` sets `chainId` to `Number(c)` and leaves `account`, `signature`
and `signLoading` as they were. -/
theorem C9_chainChanged_frame {V : Type} (Number : V → JSNumber) (c : V) (s : Session) :
    (handleChainChanged Number c s).state.chainId = some (Number c) ∧
      (handleChainChanged Number c s).state.account = s.account ∧
      (handleChainChanged Number c s).state.signature = s.signature ∧
      (handleChainChanged Number c s).state.signLoading = s.signLoading := by
  by_cases h : isSupportedChain Number c = true <;>
    simp [handleChainChanged, h, setChainId, setIsActive, setProvider]

/-! ## The signing request -/

theorem solidityPackedKeccak256_strings (data : FormInput) :
    solidityPackedKeccak256 ["string", "string", "string"]
        [data.name, data.email, data.message] =
      .ok ('0' :: 'x' :: hexText (keccakOfUtf8 data)) := by
  unfold solidityPackedKeccak256
  rw [solidityPacked_strings]
  exact keccak256_hexText _
    (isBytes_append (isBytes_append (isBytes_utf8Encode _) (isBytes_utf8Encode _))
      (isBytes_utf8Encode _))

/-- The run of `signContract` once the signer has been obtained: the message handed to
`signMessage` is `keccakOfUtf8 data`, and the rest of the run depends on the reply. -/
theorem signContract_of_signer (signer : Signer) (data : FormInput) (s : Session)
    (h : s.provider = .browserProvider) :
    signContract (.resolves signer) data s =
      match signer.signMessage (keccakOfUtf8 data) with
      | .throws _ =>
        signContractCatch (setSignLoading true s) [.getSigner, .signMessage (keccakOfUtf8 data)]
      | .rejects _ =>
        signContractCatch (setSignLoading true s) [.getSigner, .signMessage (keccakOfUtf8 data)]
      | .resolves sig =>
        ⟨setSignature (some sig) (setSignLoading true s),
          [.getSigner, .signMessage (keccakOfUtf8 data), .setTimeout 1500], .fulfilled,
          [⟨1500, .signSuccess⟩]⟩ := by
  have hb : IsBytes (keccakOfUtf8 data) := isBytes_keccak_256 _
  unfold signContract
  simp only [h, solidityPackedKeccak256_strings, getBytes_hexText _ hb]

theorem signedMessages_of_signer (signer : Signer) (data : FormInput) (s : Session)
    (h : s.provider = .browserProvider) :
    signedMessages (signContract (.resolves signer) data s) = [keccakOfUtf8 data] := by
  rw [signContract_of_signer signer data s h]
  cases signer.signMessage (keccakOfUtf8 data) <;> rfl

/-- A rejected or throwing `signMessage` call: the `catch` clause emits the failure toast,
clears `signLoading`, leaves `signature` as it was, and the promise of `signContract` is
fulfilled. -/
theorem signContract_sign_failure (signer : Signer) (data : FormInput) (s : Session)
    (h : s.provider = .browserProvider)
    (hf : ∀ sig, signer.signMessage (keccakOfUtf8 data) ≠ .resolves sig) :
    (signContract (.resolves signer) data s).completion = .fulfilled ∧
      Effect.toastError "Error occurred" ∈ (signContract (.resolves signer) data s).effects ∧
      (signContract (.resolves signer) data s).state.signature = s.signature ∧
      (signContract (.resolves signer) data s).settled.signLoading = false := by
  rw [signContract_of_signer signer data s h]
  cases hr : signer.signMessage (keccakOfUtf8 data) with
  | throws e => simp [signContractCatch, setSignLoading, Run.settled]
  | rejects e => simp [signContractCatch, setSignLoading, Run.settled]
  | resolves sig => exact absurd hr (hf sig)

/-- Once the signer has been obtained, `signLoading` is false after `signContract` and the
scheduled callback have run, whatever the reply to `signMessage`. -/
theorem signContract_settled_of_signer (signer : Signer) (data : FormInput) (s : Session)
    (h : s.provider = .browserProvider) :
    (signContract (.resolves signer) data s).settled.signLoading = false := by
  rw [signContract_of_signer signer data s h]
  cases signer.signMessage (keccakOfUtf8 data) <;>
    simp [signContractCatch, setSignLoading, setSignature, Run.settled, Callback.run]

/-- Without a signer, `signLoading` stays true: the provider is `null` or `undefined`, or
`getSigner()` fails. -/
theorem signContract_settled_without_signer (signerReply : Settled Signer) (data : FormInput)
    (s : Session)
    (h : s.provider ≠ .browserProvider ∨ ∀ signer, signerReply ≠ .resolves signer) :
    (signContract signerReply data s).settled.signLoading = true := by
  cases hp : s.provider with
  | null => simp [signContract, hp, setSignLoading, Run.settled]
  | undefined => simp [signContract, hp, setSignLoading, Run.settled]
  | browserProvider =>
    cases signerReply with
    | throws e => simp [signContract, hp, setSignLoading, Run.settled]
    | rejects e => simp [signContract, hp, setSignLoading, Run.settled]
    | resolves signer =>
      rcases h with h | h
      · exact absurd hp h
      · exact absurd rfl (h signer)

set_option maxRecDepth 100000 in
/-- The hash of the empty message, the published test vector of Keccak-256. -/
theorem keccak_256_empty :
    keccak_256 [] =
      [0xc5, 0xd2, 0x46, 0x01, 0x86, 0xf7, 0x23, 0x3c, 0x92, 0x7e, 0x7d, 0xb2, 0xdc, 0xc7, 0x03,
        0xc0, 0xe5, 0x00, 0xb6, 0x53, 0xca, 0x82, 0x27, 0x3b, 0x7b, 0xfa, 0xd8, 0x04, 0x5d, 0x85,
        0xa4, 0x70] := by
  decide

/-- C10. The packing is not injective: the distinct triples ("ab", "c", "m") and
("a", "bc", "m") have the same packed data `0x6162636d`, and in every session and for every
reply of the signer `signContract` makes the same calls, with the same bytes to sign, for
both; with a signer at hand that is one `signMessage` call on the hash of these four bytes. -/
theorem C10_packing_not_injective :
    (⟨"ab", "c", "m"⟩ : FormInput) ≠ ⟨"a", "bc", "m"⟩ ∧
      solidityPacked ["string", "string", "string"] ["ab", "c", "m"] =
        .ok "0x6162636d".toList ∧
      solidityPacked ["string", "string", "string"] ["a", "bc", "m"] =
        .ok "0x6162636d".toList ∧
      (∀ signerReply s,
        (signContract signerReply ⟨"ab", "c", "m"⟩ s).effects =
          (signContract signerReply ⟨"a", "bc", "m"⟩ s).effects) ∧
      (∀ signer s, s.provider = .browserProvider →
        signedMessages (signContract (.resolves signer) ⟨"ab", "c", "m"⟩ s) =
            [keccak_256 [0x61, 0x62, 0x63, 0x6d]] ∧
          signedMessages (signContract (.resolves signer) ⟨"a", "bc", "m"⟩ s) =
            [keccak_256 [0x61, 0x62, 0x63, 0x6d]]) := by
  have e1 : keccakOfUtf8 ⟨"ab", "c", "m"⟩ = keccak_256 [0x61, 0x62, 0x63, 0x6d] :=
    congrArg keccak_256 (by decide)
  have e2 : keccakOfUtf8 ⟨"a", "bc", "m"⟩ = keccak_256 [0x61, 0x62, 0x63, 0x6d] :=
    congrArg keccak_256 (by decide)
  refine ⟨by decide, (solidityPacked_strings "ab" "c" "m").trans (congrArg Except.ok (by decide)),
    (solidityPacked_strings "a" "bc" "m").trans (congrArg Except.ok (by decide)), ?_, ?_⟩
  · intro signerReply s
    cases hp : s.provider with
    | null => simp [signContract, hp]
    | undefined => simp [signContract, hp]
    | browserProvider =>
      cases signerReply with
      | throws e => simp [signContract, hp]
      | rejects e => simp [signContract, hp]
      | resolves signer =>
        rw [signContract_of_signer signer _ s hp, signContract_of_signer signer _ s hp, e1, e2]
  · intro signer s hp
    exact ⟨e1 ▸ signedMessages_of_signer signer _ s hp,
      e2 ▸ signedMessages_of_signer signer _ s hp⟩

theorem C10_packing_not_injective_witness :
    signedMessages (signContract (.resolves ⟨fun _ => .resolves "0x00"⟩) ⟨"ab", "c", "m"⟩
        { Session.initial with provider := .browserProvider }) =
      signedMessages (signContract (.resolves ⟨fun _ => .resolves "0x00"⟩) ⟨"a", "bc", "m"⟩
        { Session.initial with provider := .browserProvider }) :=
  ((C10_packing_not_injective.2.2.2.2 ⟨fun _ => .resolves "0x00"⟩
      { Session.initial with provider := .browserProvider } rfl).1).trans
    ((C10_packing_not_injective.2.2.2.2 ⟨fun _ => .resolves "0x00"⟩
      { Session.initial with provider := .browserProvider } rfl).2).symm

/-- C5. With `provider` null, `signContract` never calls `signer.signMessage` (it makes no call
at all and schedules no timer) and leaves `signature` as it was, for every form triple. -/
theorem C5_no_provider_no_signing (signerReply : Settled Signer) (data : FormInput)
    (s : Session) (h : s.provider = .null) :
    (∀ m, Effect.signMessage m ∉ (signContract signerReply data s).effects) ∧
      (signContract signerReply data s).effects = [] ∧
      (signContract signerReply data s).timers = [] ∧
      (signContract signerReply data s).state.signature = s.signature ∧
      (signContract signerReply data s).settled.signature = s.signature := by
  simp [signContract, h, setSignLoading, Run.settled]

theorem C5_no_provider_no_signing_witness :
    Session.initial.provider = .null ∧
      (signContract (.resolves ⟨fun _ => .resolves "0x00"⟩)
        ⟨"Alice", "alice@example.com", "hello"⟩ Session.initial).state.signature = none :=
  ⟨rfl, (C5_no_provider_no_signing (.resolves ⟨fun _ => .resolves "0x00"⟩)
    ⟨"Alice", "alice@example.com", "hello"⟩ Session.initial rfl).2.2.2.1⟩

/-- C6, at the failing inputs. With `provider` null, and with a provider whose `getSigner()` is
rejected, `signContract` sets `signLoading` and never clears it: no timer is scheduled and the
`catch` clause is not reached, so after the run `signLoading` is true. -/
theorem C6_signLoading_stuck :
    (signContract (.resolves ⟨fun _ => .resolves "0x00"⟩)
        ⟨"Alice", "alice@example.com", "hello"⟩ Session.initial).settled.signLoading = true ∧
      (signContract (.rejects (.rpcError 4001 "User rejected the request."))
        ⟨"Alice", "alice@example.com", "hello"⟩
        { Session.initial with provider := .browserProvider }).settled.signLoading = true := by
  constructor <;> rfl

/-- C7, at the failing input. When the wallet rejects the `eth_requestAccounts` request, the
promise of `connect` is rejected with the error of the wallet and nothing is logged: the
rejection reaches the caller of `connect`. -/
theorem C7_connect_rejection_propagates :
    (connect (some (.rejects (.rpcError 4001 "User rejected the request.")))
        Session.initial).completion = .rejected (.rpcError 4001 "User rejected the request.") ∧
      (connect (some (.rejects (.rpcError 4001 "User rejected the request.")))
        Session.initial).effects = [.ethereumRequest "eth_requestAccounts"] := by
  constructor <;> rfl

/-! ## Runs on concrete inputs

A wallet that reports the chain id as a number: `Number` of a number is that number. -/

theorem example_supported_chain :
    sessionAfter id
        [.accountsChanged ["0x71C7656EC7ab88b098defB751B7401B5f6d8976F"]
          (.resolves (.real 84531))] =
      { signature := none, account := some "0x71C7656EC7ab88b098defB751B7401B5f6d8976F",
        isActive := true, provider := .browserProvider, chainId := some (.real 84531),
        signLoading := false } := by
  decide

theorem example_unsupported_chain :
    sessionAfter id
        [.accountsChanged ["0x71C7656EC7ab88b098defB751B7401B5f6d8976F"]
          (.resolves (.real 84531)), .chainChanged (.real 1)] =
      { signature := none, account := some "0x71C7656EC7ab88b098defB751B7401B5f6d8976F",
        isActive := false, provider := .null, chainId := some (.real 1),
        signLoading := false } := by
  decide

theorem example_nan_chain :
    sessionAfter id [.chainChanged .nan, .accountsChanged [] (.resolves (.real 84531))] =
      Session.initial := by
  decide

theorem example_sign_success :
    (signContract (.resolves ⟨fun _ => .resolves "0x5161"⟩)
        ⟨"Alice", "alice@example.com", "hello"⟩
        { Session.initial with provider := .browserProvider }).settled =
      { Session.initial with provider := .browserProvider, signature := some "0x5161" } := by
  rw [signContract_of_signer _ _ _ rfl]
  rfl

set_option maxRecDepth 1000000 in
/-- The whole signing path evaluated on the triple ("Alice", "alice@example.com", "hello"). -/
theorem example_alice_signed_bytes :
    signedMessages (signContract (.resolves ⟨fun _ => .resolves "0x5161"⟩)
        ⟨"Alice", "alice@example.com", "hello"⟩
        { Session.initial with provider := .browserProvider }) =
      [[0xe0, 0x77, 0xa2, 0xf5, 0xd5, 0x0a, 0x25, 0x23, 0xc3, 0xd9, 0x76, 0xa9, 0x7a, 0xf5, 0xab,
        0x39, 0xe6, 0xa3, 0x6c, 0x9b, 0xd8, 0xef, 0x32, 0x78, 0x77, 0x7d, 0xf9, 0x88, 0xdd, 0xba,
        0xc1, 0xb6]] := by
  decide

end Web3Signer

